import Mathlib

/-!
Verification of the automark bookmark store against its specification.

The Rust sources are shallowly embedded:
* `src/types/bookmark.rs` — domain types (`Bookmark`, `Note`, `ReadingStatus`,
  `BookmarkFilters`, `SortBy`, `SortDirection`).
* `src/adapters/automerge_repo.rs` — the document adapter: the automerge
  document's bookmarks map is embedded as an association list of per-bookmark
  field nodes, and `create` / `find_all` / `find_by_id` / `update` /
  `apply_filters` / `save` / `load_from_file` are translated operation by
  operation.
* `src/commands/sync.rs` — the sync session's message-handling loop, embedded
  as a step function on a session state.

Chrono's RFC 3339 date formatting/parsing pair and Rust's integer
`to_string`/`parse` pair are modelled by an injective decimal printer with its
exact parser inverse; timestamps are modelled as natural numbers.
-/

namespace Automark

/-! ### Decimal printing and parsing (model of `to_string` / `parse`, and of
chrono's `to_rfc3339` / `parse_from_rfc3339` on timestamps) -/

def digitToChar (d : Nat) : Char := Char.ofNat (48 + d)

def charToDigit (c : Char) : Option Nat :=
  if 48 ≤ c.toNat && c.toNat ≤ 57 then some (c.toNat - 48) else none

/-- Little-endian digit list of `n`, with explicit structural fuel. -/
def toDigitsAux : Nat → Nat → List Nat
  | 0, _ => []
  | _ + 1, 0 => []
  | fuel + 1, n + 1 => ((n + 1) % 10) :: toDigitsAux fuel ((n + 1) / 10)

def toDigitsLE (n : Nat) : List Nat := toDigitsAux n n

def ofDigitsLE : List Nat → Nat
  | [] => 0
  | d :: ds => d + 10 * ofDigitsLE ds

def natToString (n : Nat) : String :=
  if n = 0 then "0" else String.mk (((toDigitsLE n).map digitToChar).reverse)

def digitsOfChars : List Char → Option (List Nat)
  | [] => some []
  | c :: cs =>
    match charToDigit c, digitsOfChars cs with
    | some d, some ds => some (d :: ds)
    | _, _ => none

def parseNat (s : String) : Option Nat :=
  if s.data.isEmpty then none
  else (digitsOfChars s.data).map (fun ds => ofDigitsLE ds.reverse)

/-- Model of chrono `DateTime<Utc>::to_rfc3339`: injective rendering of the
timestamp (timestamps are modelled as naturals). -/
def toRfc3339 (t : Nat) : String := natToString t

/-- Model of chrono `DateTime::parse_from_rfc3339`, exact inverse of
`toRfc3339` on its image. -/
def parseRfc3339 (s : String) : Option Nat := parseNat s

/-- Model of Rust `str::parse::<u8>` (fails above `u8::MAX`). -/
def parseU8 (s : String) : Option Nat :=
  match parseNat s with
  | some n => if n ≤ 255 then some n else none
  | none => none

theorem ofDigitsLE_toDigitsAux (fuel n : Nat) (h : n ≤ fuel) :
    ofDigitsLE (toDigitsAux fuel n) = n := by
  induction fuel generalizing n with
  | zero =>
    interval_cases n
    rfl
  | succ fuel ih =>
    cases n with
    | zero => rfl
    | succ m =>
      have hdiv : (m + 1) / 10 ≤ fuel := by
        have := Nat.div_lt_self (Nat.succ_pos m) (by norm_num : 1 < 10)
        omega
      simp only [toDigitsAux, ofDigitsLE, ih _ hdiv]
      omega

theorem toDigitsAux_lt_ten (fuel n : Nat) :
    ∀ d ∈ toDigitsAux fuel n, d < 10 := by
  induction fuel generalizing n with
  | zero => intro d hd; simp [toDigitsAux] at hd
  | succ fuel ih =>
    cases n with
    | zero => intro d hd; simp [toDigitsAux] at hd
    | succ m =>
      intro d hd
      simp only [toDigitsAux, List.mem_cons] at hd
      rcases hd with h | h
      · subst h; exact Nat.mod_lt _ (by norm_num)
      · exact ih _ d h

theorem toDigitsLE_ne_nil (n : Nat) (h : n ≠ 0) : toDigitsLE n ≠ [] := by
  cases n with
  | zero => exact absurd rfl h
  | succ m => simp [toDigitsLE, toDigitsAux]

theorem charToDigit_digitToChar (d : Nat) (h : d < 10) :
    charToDigit (digitToChar d) = some d := by
  interval_cases d <;> rfl

theorem digitsOfChars_map (l : List Nat) (h : ∀ d ∈ l, d < 10) :
    digitsOfChars (l.map digitToChar) = some l := by
  induction l with
  | nil => rfl
  | cons d t ih =>
    have hd : d < 10 := h d (List.mem_cons_self _ _)
    have ht : digitsOfChars (t.map digitToChar) = some t :=
      ih (fun x hx => h x (List.mem_cons_of_mem _ hx))
    simp [digitsOfChars, charToDigit_digitToChar d hd, ht]

theorem parseNat_natToString (n : Nat) : parseNat (natToString n) = some n := by
  by_cases h : n = 0
  · subst h; rfl
  · have hne : toDigitsLE n ≠ [] := toDigitsLE_ne_nil n h
    have hlt : ∀ d ∈ (toDigitsLE n).reverse, d < 10 := by
      intro d hd
      exact toDigitsAux_lt_ten n n d (List.mem_reverse.mp hd)
    have hdata : (natToString n).data = ((toDigitsLE n).map digitToChar).reverse := by
      simp [natToString, h]
    have hchars : digitsOfChars ((toDigitsLE n).reverse.map digitToChar)
        = some (toDigitsLE n).reverse := digitsOfChars_map _ hlt
    have hempty : (natToString n).data.isEmpty = false := by
      rw [hdata, ← List.map_reverse]
      cases hrev : (toDigitsLE n).reverse with
      | nil => exact absurd (List.reverse_eq_nil_iff.mp hrev) hne
      | cons a t => rfl
    rw [parseNat, hempty, hdata, ← List.map_reverse, hchars]
    simp [ofDigitsLE_toDigitsAux n n (Nat.le_refl n), toDigitsLE]

theorem parseRfc3339_toRfc3339 (t : Nat) : parseRfc3339 (toRfc3339 t) = some t :=
  parseNat_natToString t

theorem parseU8_natToString (p : Nat) (h : p ≤ 255) :
    parseU8 (natToString p) = some p := by
  simp [parseU8, parseNat_natToString, h]

/-! ### Domain types (`src/types/bookmark.rs`) -/

inductive ReadingStatus where
  | unread
  | reading
  | completed
deriving DecidableEq, Repr, BEq

structure Note where
  id : String
  content : String
  created_at : Nat
deriving DecidableEq, Repr

structure Bookmark where
  id : String
  url : String
  title : String
  bookmarked_date : Nat
  author : Option String
  tags : List String
  publish_date : Option Nat
  notes : List Note
  reading_status : ReadingStatus
  priority_rating : Option Nat
deriving DecidableEq, Repr

inductive SortBy where
  | bookmarkedDate
  | publishDate
  | title
  | priority
deriving DecidableEq, Repr

inductive SortDirection where
  | ascending
  | descending
deriving DecidableEq, Repr

structure BookmarkFilters where
  text_query : Option String := none
  tags : Option (List String) := none
  reading_status : Option ReadingStatus := none
  priority_range : Option (Nat × Nat) := none
  bookmarked_since : Option Nat := none
  bookmarked_until : Option Nat := none
  published_since : Option Nat := none
  published_until : Option Nat := none
  sort_by : Option SortBy := none
  sort_order : Option SortDirection := none
deriving DecidableEq, Repr

inductive BookmarkError where
  | invalidUrl (msg : String)
  | emptyTitle
  | invalidId (msg : String)
  | notFound (id : String)
  | syncError (msg : String)
deriving DecidableEq, Repr

/-- The domain-level validity the adapter may rely on: `with_priority` only
ever stores a rating between 1 and 5 (`src/types/bookmark.rs`,
`Bookmark::with_priority`). -/
def validBookmark (b : Bookmark) : Prop :=
  ∀ p, b.priority_rating = some p → 1 ≤ p ∧ p ≤ 5

instance : DecidablePred validBookmark := by
  intro b
  unfold validBookmark
  cases b.priority_rating with
  | none => exact .isTrue (by intro p hp; cases hp)
  | some q =>
    by_cases h : 1 ≤ q ∧ q ≤ 5
    · exact .isTrue (by intro p hp; cases hp; exact h)
    · exact .isFalse (fun hall => h (hall q rfl))

/-! ### Automerge node embedding (`src/adapters/automerge_repo.rs`)

A per-bookmark node of the automerge document is a map whose fields the
adapter writes as strings plus a `tags` string-list node and a `notes` node
list; each field may be present or absent. -/

structure NoteNode where
  id : Option String
  content : Option String
  created_at : Option String
deriving DecidableEq, Repr

structure BookmarkNode where
  id : Option String := none
  url : Option String := none
  title : Option String := none
  bookmarked_date : Option String := none
  author : Option String := none
  publish_date : Option String := none
  reading_status : Option String := none
  priority_rating : Option String := none
  tags : Option (List String) := none
  notes : Option (List NoteNode) := none
deriving DecidableEq, Repr

/-- The `bookmarks` map object: an association list keyed by bookmark id. -/
def BookmarksMap := List (String × BookmarkNode)
deriving DecidableEq

/-- `doc.get(map, key)`: first binding with the given key. -/
def mapGet : BookmarksMap → String → Option BookmarkNode
  | [], _ => none
  | (k', v) :: rest, k => if k' = k then some v else mapGet rest k

/-- `doc.put_object(map, key, ...)`: overwrite the binding if the key is
present, otherwise add it. -/
def mapPut : BookmarksMap → String → BookmarkNode → BookmarksMap
  | [], k, v => [(k, v)]
  | (k', v') :: rest, k, v =>
    if k' = k then (k, v) :: rest else (k', v') :: mapPut rest k v

/-- `ReadingStatus` rendering in `add_bookmark_to_automerge` /
`update_bookmark_fields`. -/
def statusToString : ReadingStatus → String
  | .unread => "Unread"
  | .reading => "Reading"
  | .completed => "Completed"

/-- The status match in `bookmark_from_automerge`. -/
def statusOfString (s : String) : Option ReadingStatus :=
  if s = "Unread" then some .unread
  else if s = "Reading" then some .reading
  else if s = "Completed" then some .completed
  else none

/-- `add_note_to_list`: a note node carries id, content and the RFC 3339
rendering of its creation date. -/
def encodeNote (nt : Note) : NoteNode :=
  ⟨some nt.id, some nt.content, some (toRfc3339 nt.created_at)⟩

/-- `add_bookmark_to_automerge`: the node written for a bookmark. Scalar
fields are written as strings; `author`, `publish_date`, `priority_rating`
only when present; the `tags` and `notes` list nodes only when nonempty. -/
def encodeBookmark (b : Bookmark) : BookmarkNode where
  id := some b.id
  url := some b.url
  title := some b.title
  bookmarked_date := some (toRfc3339 b.bookmarked_date)
  author := b.author
  publish_date := b.publish_date.map toRfc3339
  reading_status := some (statusToString b.reading_status)
  priority_rating := b.priority_rating.map natToString
  tags := if b.tags.isEmpty then none else some b.tags
  notes := if b.notes.isEmpty then none else some (b.notes.map encodeNote)

/-- `get_string_field`: a required field must be present (the adapter reports
a missing field with the `InvalidUrl` error constructor, as in the source). -/
def getStringField (v : Option String) (field : String) : Except BookmarkError String :=
  match v with
  | some s => .ok s
  | none => .error (.invalidUrl ("Bookmark missing " ++ field))

/-- `note_from_automerge`. -/
def decodeNote (n : NoteNode) : Except BookmarkError Note := do
  let id ← getStringField n.id "id"
  let content ← getStringField n.content "content"
  let createdStr ← getStringField n.created_at "created_at"
  match parseRfc3339 createdStr with
  | some d => .ok ⟨id, content, d⟩
  | none => .error (.invalidUrl "Failed to parse note date")

/-- `bookmark_from_automerge`: decode a node into a domain bookmark.
Required fields fail the decode when absent; optional fields fall back
(`reading_status` to `Unread`, lists to empty); undecodable notes are
skipped. -/
def decodeBookmark (n : BookmarkNode) : Except BookmarkError Bookmark := do
  let id ← getStringField n.id "id"
  let url ← getStringField n.url "url"
  let title ← getStringField n.title "title"
  let dateStr ← getStringField n.bookmarked_date "bookmarked_date"
  match parseRfc3339 dateStr with
  | none => .error (.invalidUrl "Failed to parse date")
  | some bookmarkedDate =>
    let author := n.author
    let publishDate := n.publish_date.bind parseRfc3339
    let readingStatus := (n.reading_status.bind statusOfString).getD .unread
    let priorityRating := n.priority_rating.bind parseU8
    let tags := n.tags.getD []
    let notes := (n.notes.getD []).filterMap (fun nn => (decodeNote nn).toOption)
    .ok ⟨id, url, title, bookmarkedDate, author, tags, publishDate, notes,
         readingStatus, priorityRating⟩

/-! ### Store and persistence (`AutomergeBookmarkRepository`) -/

/-- The root automerge document: the `bookmarks` key may be present or
absent. Serialization (`doc.save()` / `AutoCommit::load`) round-trips the
logical document state, so the snapshot file is modelled as holding the root
document itself. -/
structure RootDoc where
  bookmarks : Option BookmarksMap
deriving DecidableEq

/-- Repository state: the in-memory `bookmarks` map object, and the snapshot
path's contents (`none` models both an absent and an empty file, which
`load_from_file` treats identically as "start fresh"). -/
structure Store where
  bookmarksMap : BookmarksMap
  file : Option RootDoc
deriving DecidableEq

/-- `load_from_file`: an absent/empty file yields a fresh document; otherwise
the snapshot is loaded; then the `bookmarks` map object is fetched, or
created empty when the root lacks it. -/
def load_from_file (file : Option RootDoc) : BookmarksMap :=
  match file with
  | none => []
  | some root =>
    match root.bookmarks with
    | some m => m
    | none => []

/-- `AutomergeBookmarkRepository::new(path)`. -/
def Store.new (file : Option RootDoc) : Store :=
  ⟨load_from_file file, file⟩

/-- `save`: serialize the full document and atomically replace the snapshot
(the temp-write/rename mechanics leave the visible contents exactly the
serialized document). -/
def save (s : Store) : Store :=
  { s with file := some ⟨some s.bookmarksMap⟩ }

/-- Closing the store and reopening it from the same snapshot path. -/
def reopen (s : Store) : Store :=
  Store.new s.file

/-- Every reachable store is in sync with its snapshot path: each mutating
operation ends in `save`, and a fresh store pairs an empty map with an
absent file. -/
def storeSynced (s : Store) : Prop :=
  s.file = some ⟨some s.bookmarksMap⟩ ∨ (s.file = none ∧ s.bookmarksMap = [])

/-- `create`: write the bookmark's node under its id and persist. -/
def create (s : Store) (b : Bookmark) : Except BookmarkError Bookmark × Store :=
  let s' := save { s with bookmarksMap := mapPut s.bookmarksMap b.id (encodeBookmark b) }
  (.ok b, s')

/-- `find_by_id`. -/
def find_by_id (s : Store) (id : String) : Except BookmarkError Bookmark :=
  match mapGet s.bookmarksMap id with
  | some node => decodeBookmark node
  | none => .error (.notFound id)

/-- The enumeration loop of `find_all`: decode each entry, skip entries whose
decode fails. -/
def findAllLoop : BookmarksMap → List Bookmark
  | [] => []
  | (_, node) :: rest =>
    match decodeBookmark node with
    | .ok b => b :: findAllLoop rest
    | .error _ => findAllLoop rest

/-- Case-insensitive substring test (`str::contains` on lowercased sides). -/
def strContainsSub (hay needle : String) : Bool :=
  decide (needle.data <:+: hay.data)

/-- `apply_filters` (`src/adapters/automerge_repo.rs:284-323`): sequential
`retain` passes for text query, tags (AND, case-insensitive), reading status
and priority range. The date-bound and sort fields of `BookmarkFilters` are
not consulted anywhere in the function. -/
def apply_filters (bookmarks : List Bookmark) (filters : BookmarkFilters) : List Bookmark :=
  let bs1 :=
    match filters.text_query with
    | none => bookmarks
    | some query =>
      let q := query.toLower
      bookmarks.filter (fun b =>
        strContainsSub b.title.toLower q ||
        strContainsSub b.url.toLower q ||
        (match b.author with
         | some a => strContainsSub a.toLower q
         | none => false) ||
        b.notes.any (fun nt => strContainsSub nt.content.toLower q))
  let bs2 :=
    match filters.tags with
    | none => bs1
    | some filterTags =>
      let tagsLower := filterTags.map String.toLower
      bs1.filter (fun b =>
        tagsLower.all (fun t => b.tags.any (fun bt => bt.toLower == t)))
  let bs3 :=
    match filters.reading_status with
    | none => bs2
    | some st => bs2.filter (fun b => b.reading_status == st)
  let bs4 :=
    match filters.priority_range with
    | none => bs3
    | some (mn, mx) =>
      bs3.filter (fun b =>
        match b.priority_rating with
        | some p => decide (mn ≤ p) && decide (p ≤ mx)
        | none => false)
  bs4

/-- `find_all`: enumerate, decode-or-skip, then apply filters when given. -/
def find_all (s : Store) (filters : Option BookmarkFilters) :
    Except BookmarkError (List Bookmark) :=
  let bookmarks := findAllLoop s.bookmarksMap
  match filters with
  | some f => .ok (apply_filters bookmarks f)
  | none => .ok bookmarks

/-- `update_bookmark_fields`: overwrite scalar fields unconditionally, write
or delete optional scalars according to presence, and wholesale-replace the
`tags` and `notes` list nodes (delete then recreate when nonempty). The `id`
field is not touched. -/
def update_bookmark_fields (node : BookmarkNode) (b : Bookmark) : BookmarkNode :=
  { node with
    url := some b.url
    title := some b.title
    bookmarked_date := some (toRfc3339 b.bookmarked_date)
    author := b.author
    publish_date := b.publish_date.map toRfc3339
    reading_status := some (statusToString b.reading_status)
    priority_rating := b.priority_rating.map natToString
    tags := if b.tags.isEmpty then none else some b.tags
    notes := if b.notes.isEmpty then none else some (b.notes.map encodeNote) }

/-- `update`: NotFound when the id is absent (nothing written, nothing
persisted); otherwise update the node's fields and persist. -/
def update (s : Store) (b : Bookmark) : Except BookmarkError Bookmark × Store :=
  match mapGet s.bookmarksMap b.id with
  | none => (.error (.notFound b.id), s)
  | some node =>
    let s' := save { s with bookmarksMap := mapPut s.bookmarksMap b.id (update_bookmark_fields node b) }
    (.ok b, s')

/-! ### Sync session (`src/commands/sync.rs`)

The message-handling `match` inside the event loop of `handle_sync_command`
is embedded as a step function on a session state. The repository's two sync
primitives are implemented outside `src/` (only their trait declarations and
call sites are present), so they are modelled from the spec below. -/

/-- A decoded sync-diff blob: the opaque byte data of a `Sync` message,
modelled as the document delta it decodes to. -/
def SyncBlob := List (String × BookmarkNode)
deriving DecidableEq

/-- The four wire messages of the protocol, with the fields of
`ProtocolMessage` in `src/commands/sync.rs`. -/
inductive ProtocolMessage where
  | join (senderId : String) (supportedProtocolVersions : List String)
      (storageId : Option String)
  | peer (senderId : String) (supportedProtocolVersions : List String)
      (storageId : Option String) (selectedProtocolVersion : String)
  | sync (documentId senderId targetId : String) (data : SyncBlob)
  | request (documentId senderId targetId : String)
deriving DecidableEq

/-- Repository state seen by the sync session: the document's bookmarks map
plus the per-peer accumulated sync state. -/
structure SyncRepoState where
  doc : BookmarksMap
  peerStates : List (String × BookmarksMap)
deriving DecidableEq

def peerStatesGet : List (String × BookmarksMap) → String → Option BookmarksMap
  | [], _ => none
  | (k', v) :: rest, k => if k' = k then some v else peerStatesGet rest k

def peerStatesPut : List (String × BookmarksMap) → String → BookmarksMap →
    List (String × BookmarksMap)
  | [], k, v => [(k, v)]
  | (k', v') :: rest, k, v =>
    if k' = k then (k, v) :: rest else (k', v') :: peerStatesPut rest k v

/-- Modelled from the spec: `generate_sync_message` (its automerge
implementation is not under `src/`; §4.3 and §5 of the spec describe it).
It produces the sync-state-diff for the given peer — the part of the
document the peer has not yet seen, keyed by peer identity so repeated peers
reuse accumulated sync state — with read-only access to the document: only
the per-peer sync state is updated. -/
def generate_sync_message (repo : SyncRepoState) (peerId : String) :
    SyncRepoState × SyncBlob :=
  let known := (peerStatesGet repo.peerStates peerId).getD []
  let diff : SyncBlob := repo.doc.filter (fun kv => !(known.contains kv))
  ({ repo with peerStates := peerStatesPut repo.peerStates peerId repo.doc }, diff)

/-- Modelled from the spec: `apply_sync_message` (its automerge
implementation is not under `src/`; §4.3 of the spec describes it). It
merges the blob's delta into the local document and reports whether any
change was actually incorporated. -/
def apply_sync_message (repo : SyncRepoState) (blob : SyncBlob) :
    SyncRepoState × Bool :=
  let doc' := blob.foldl (fun acc kv => mapPut acc kv.1 kv.2) repo.doc
  ({ repo with doc := doc' }, decide (doc' ≠ repo.doc))

/-- The local mutable state of the event loop in `handle_sync_command`:
`changes_received`, `changes_sent`, `_remote_peer_id`, the repository handle,
and the messages written to the socket. -/
structure SessionState where
  repo : SyncRepoState
  changesReceived : Nat
  changesSent : Nat
  remotePeerId : Option String
  sent : List ProtocolMessage
deriving DecidableEq

/-- One iteration of the message-handling `match` in `handle_sync_command`
(`src/commands/sync.rs:172-248`) for a decoded inbound message.

* `Peer`: record the remote peer id, generate the initial sync-state-diff for
  that peer, and send it (counting it) when nonempty.
* `Sync`: only for a matching document id, increment `changes_received`, and
  apply the data to the repository unless `dry_run` is set. A mismatched
  document id leaves the state untouched.
* `Request`: only for a matching document id, generate and send (and count)
  the diff for the requesting peer when nonempty.
* `Join` falls into the wildcard arm and is ignored. -/
def handleMessage (documentId peerId : String) (dryRun : Bool)
    (st : SessionState) (msg : ProtocolMessage) : SessionState :=
  match msg with
  | .peer senderId _ _ _ =>
    let st := { st with remotePeerId := some senderId }
    let (repo', syncMsg) := generate_sync_message st.repo senderId
    let st := { st with repo := repo' }
    if syncMsg.isEmpty then st
    else
      { st with
        sent := st.sent ++ [.sync documentId peerId senderId syncMsg]
        changesSent := st.changesSent + 1 }
  | .sync docId _ _ syncData =>
    if docId = documentId then
      let st := { st with changesReceived := st.changesReceived + 1 }
      if dryRun then st
      else
        let (repo', _) := apply_sync_message st.repo syncData
        { st with repo := repo' }
    else st
  | .request docId senderId _ =>
    if docId = documentId then
      let (repo', syncMsg) := generate_sync_message st.repo senderId
      let st := { st with repo := repo' }
      if syncMsg.isEmpty then st
      else
        { st with
          sent := st.sent ++ [.sync docId peerId senderId syncMsg]
          changesSent := st.changesSent + 1 }
    else st
  | .join _ _ _ => st

/-- A session run over a list of decoded inbound messages. -/
def runSession (documentId peerId : String) (dryRun : Bool)
    (st : SessionState) (msgs : List ProtocolMessage) : SessionState :=
  msgs.foldl (handleMessage documentId peerId dryRun) st

/-- Inbound `Sync` messages for the session's document id. -/
def isMatchingSync (documentId : String) : ProtocolMessage → Bool
  | .sync docId _ _ _ => docId == documentId
  | _ => false

/-! ### Round-trip and map lemmas -/

theorem statusOfString_statusToString (st : ReadingStatus) :
    statusOfString (statusToString st) = some st := by
  cases st <;> rfl

theorem decodeNote_encodeNote (nt : Note) : decodeNote (encodeNote nt) = .ok nt := by
  show (match parseRfc3339 (toRfc3339 nt.created_at) with
    | some d => Except.ok ({ id := nt.id, content := nt.content, created_at := d } : Note)
    | none => Except.error (BookmarkError.invalidUrl "Failed to parse note date")) = Except.ok nt
  rw [parseRfc3339_toRfc3339]

theorem filterMap_decodeNote (l : List Note) :
    (l.map encodeNote).filterMap (fun nn => (decodeNote nn).toOption) = l := by
  induction l with
  | nil => rfl
  | cons n t ih =>
    simp only [List.map_cons, List.filterMap_cons, decodeNote_encodeNote, Except.toOption]
    exact congrArg (n :: ·) ih

theorem decodeBookmark_encodeBookmark (b : Bookmark) (hb : validBookmark b) :
    decodeBookmark (encodeBookmark b) = .ok b := by
  obtain ⟨id, url, title, bd, author, tags, pd, notes, rs, pr⟩ := b
  show (match parseRfc3339 (toRfc3339 bd) with
    | none => Except.error (BookmarkError.invalidUrl "Failed to parse date")
    | some bdv => Except.ok (⟨id, url, title, bdv, author,
        ((if tags.isEmpty then none else some tags) : Option (List String)).getD [],
        (pd.map toRfc3339).bind parseRfc3339,
        (((if notes.isEmpty then none else some (notes.map encodeNote)) :
            Option (List NoteNode)).getD []).filterMap (fun nn => (decodeNote nn).toOption),
        ((some (statusToString rs)).bind statusOfString).getD .unread,
        (pr.map natToString).bind parseU8⟩ : Bookmark)) =
      Except.ok (⟨id, url, title, bd, author, tags, pd, notes, rs, pr⟩ : Bookmark)
  rw [parseRfc3339_toRfc3339]
  simp only [Except.ok.injEq, Bookmark.mk.injEq, true_and]
  refine ⟨?_, ?_, ?_, ?_, ?_⟩
  · cases tags <;> simp
  · cases pd <;> simp [parseRfc3339_toRfc3339]
  · cases notes with
    | nil => rfl
    | cons n t =>
      simp only [List.isEmpty_cons, Bool.false_eq_true, if_false, Option.getD_some]
      exact filterMap_decodeNote (n :: t)
  · simp [statusOfString_statusToString]
  · cases pr with
    | none => rfl
    | some p =>
      have hp := hb p rfl
      simp [parseU8_natToString p (by omega)]

theorem mapGet_mapPut (m : BookmarksMap) (k : String) (v : BookmarkNode) :
    mapGet (mapPut m k v) k = some v := by
  induction m with
  | nil => simp [mapPut, mapGet]
  | cons hd rest ih =>
    obtain ⟨k', v'⟩ := hd
    by_cases h : k' = k
    · simp [mapPut, h, mapGet]
    · simp [mapPut, h, mapGet, ih]

theorem countP_key_eq_zero (m : BookmarksMap) (k : String)
    (h : k ∉ m.map Prod.fst) :
    List.countP (fun kv => kv.1 == k) m = 0 := by
  induction m with
  | nil => rfl
  | cons hd rest ih =>
    obtain ⟨k', v'⟩ := hd
    simp only [List.map_cons, List.mem_cons, not_or] at h
    rw [List.countP_cons]
    have hk : ((k', v').1 == k) = false := by
      simp only [beq_eq_false_iff_ne, ne_eq]
      exact fun hc => h.1 hc.symm
    simp [hk, ih h.2]

theorem countP_key_mapPut (m : BookmarksMap) (k : String) (v : BookmarkNode)
    (hnd : (m.map Prod.fst).Nodup) :
    List.countP (fun kv => kv.1 == k) (mapPut m k v) = 1 := by
  induction m with
  | nil => simp [mapPut]
  | cons hd rest ih =>
    obtain ⟨k', v'⟩ := hd
    simp only [List.map_cons, List.nodup_cons] at hnd
    by_cases h : k' = k
    · subst h
      simp [mapPut, List.countP_cons, countP_key_eq_zero rest k' hnd.1]
    · have hk : ((k', v').1 == k) = false := by
        simp only [beq_eq_false_iff_ne, ne_eq]
        exact h
      simp [mapPut, h, List.countP_cons, hk, ih hnd.2]

theorem findAllLoop_eq_filterMap (m : BookmarksMap) :
    findAllLoop m = m.filterMap (fun kv => (decodeBookmark kv.2).toOption) := by
  induction m with
  | nil => rfl
  | cons hd rest ih =>
    obtain ⟨k, node⟩ := hd
    rw [List.filterMap_cons]
    cases h : decodeBookmark node with
    | ok b => simp [findAllLoop, h, Except.toOption, ih]
    | error e => simp [findAllLoop, h, Except.toOption, ih]

/-! ### Claim theorems -/

/-- A sample valid bookmark used by the concrete witnesses below. -/
def sampleBookmark : Bookmark :=
  ⟨"id1", "https://example.com", "Example", 0, none, [], none, [],
   ReadingStatus.unread, none⟩

/-- Claim C1: for every valid bookmark `b`, `create b` then `find_by_id b.id`
returns a bookmark equal to `b`; and for every store state, closing the
store and reopening it from the same snapshot path yields a store whose full
`find_all` result equals the full `find_all` result before closing. -/
theorem create_find_by_id_roundtrip_and_reopen (s : Store) (b : Bookmark)
    (hb : validBookmark b) (hs : storeSynced s) :
    find_by_id (create s b).2 b.id = .ok b ∧
    find_all (reopen s) none = find_all s none := by
  constructor
  · show (match mapGet (mapPut s.bookmarksMap b.id (encodeBookmark b)) b.id with
      | some node => decodeBookmark node
      | none => Except.error (BookmarkError.notFound b.id)) = Except.ok b
    rw [mapGet_mapPut]
    exact decodeBookmark_encodeBookmark b hb
  · show Except.ok (findAllLoop (load_from_file s.file)) =
      Except.ok (findAllLoop s.bookmarksMap)
    rcases hs with h | ⟨hf, hm⟩
    · rw [h]
      rfl
    · rw [hf, hm]
      rfl

theorem create_find_by_id_roundtrip_and_reopen_witness :
    find_by_id (create ⟨[], none⟩ sampleBookmark).2 sampleBookmark.id =
      .ok sampleBookmark ∧
    find_all (reopen ⟨[], none⟩) none = find_all ⟨[], none⟩ none :=
  create_find_by_id_roundtrip_and_reopen ⟨[], none⟩ sampleBookmark
    (by decide) (Or.inr ⟨rfl, rfl⟩)

/-- Claim C2: `update` on a bookmark whose id is not a key of the bookmarks
map returns `NotFound` and leaves the store (and hence every subsequent
`find_all` result) exactly as it was — nothing is written, nothing is
persisted. -/
theorem update_nonexistent_notFound (s : Store) (b : Bookmark)
    (h : mapGet s.bookmarksMap b.id = none) :
    update s b = (.error (.notFound b.id), s) ∧
    find_all (update s b).2 none = find_all s none := by
  have h1 : update s b = (.error (.notFound b.id), s) := by
    unfold update
    rw [h]
  exact ⟨h1, by rw [h1]⟩

theorem update_nonexistent_notFound_witness :
    update ⟨[], none⟩ sampleBookmark =
      (.error (.notFound sampleBookmark.id), (⟨[], none⟩ : Store)) ∧
    find_all (update ⟨[], none⟩ sampleBookmark).2 none =
      find_all ⟨[], none⟩ none :=
  update_nonexistent_notFound ⟨[], none⟩ sampleBookmark rfl

/-- Claim C7: for every store whose map contains at least one entry that
fails to decode, `find_all` does not fail: it enumerates every key, skips
each entry whose decode fails, and returns the successfully decoded
bookmarks. -/
theorem find_all_skips_undecodable (s : Store)
    (h : s.bookmarksMap.any (fun kv => (decodeBookmark kv.2).toOption.isNone)) :
    find_all s none =
      .ok (s.bookmarksMap.filterMap (fun kv => (decodeBookmark kv.2).toOption)) := by
  show Except.ok (findAllLoop s.bookmarksMap) = _
  rw [findAllLoop_eq_filterMap]

theorem find_all_skips_undecodable_witness :
    find_all (⟨[("id1", encodeBookmark sampleBookmark),
        ("bad", ({} : BookmarkNode))], none⟩ : Store) none =
      .ok ([("id1", encodeBookmark sampleBookmark),
        ("bad", ({} : BookmarkNode))].filterMap
          (fun kv => (decodeBookmark kv.2).toOption)) :=
  find_all_skips_undecodable
    ⟨[("id1", encodeBookmark sampleBookmark), ("bad", ({} : BookmarkNode))], none⟩
    (by decide)

/-- Claim C10: `create` on a bookmark whose id is already a key of the map
does not return an error and does not preserve the previous entry: the
per-bookmark node is silently replaced by `b`'s fields, a subsequent
`find_by_id b.id` returns `b`, and the map still holds exactly one entry
for that id. -/
theorem create_existing_replaces (s : Store) (b : Bookmark)
    (hb : validBookmark b) (hk : (mapGet s.bookmarksMap b.id).isSome = true)
    (hnd : (s.bookmarksMap.map Prod.fst).Nodup) :
    (create s b).1 = .ok b ∧
    mapGet (create s b).2.bookmarksMap b.id = some (encodeBookmark b) ∧
    find_by_id (create s b).2 b.id = .ok b ∧
    List.countP (fun kv => kv.1 == b.id) (create s b).2.bookmarksMap = 1 := by
  refine ⟨rfl, ?_, ?_, ?_⟩
  · exact mapGet_mapPut s.bookmarksMap b.id (encodeBookmark b)
  · show (match mapGet (mapPut s.bookmarksMap b.id (encodeBookmark b)) b.id with
      | some node => decodeBookmark node
      | none => Except.error (BookmarkError.notFound b.id)) = Except.ok b
    rw [mapGet_mapPut]
    exact decodeBookmark_encodeBookmark b hb
  · exact countP_key_mapPut s.bookmarksMap b.id (encodeBookmark b) hnd

theorem create_existing_replaces_witness :
    (create ⟨[("id1", ({} : BookmarkNode))], none⟩ sampleBookmark).1 =
      .ok sampleBookmark ∧
    mapGet (create ⟨[("id1", ({} : BookmarkNode))], none⟩ sampleBookmark).2.bookmarksMap
      sampleBookmark.id = some (encodeBookmark sampleBookmark) ∧
    find_by_id (create ⟨[("id1", ({} : BookmarkNode))], none⟩ sampleBookmark).2
      sampleBookmark.id = .ok sampleBookmark ∧
    List.countP (fun kv => kv.1 == sampleBookmark.id)
      (create ⟨[("id1", ({} : BookmarkNode))], none⟩ sampleBookmark).2.bookmarksMap = 1 :=
  create_existing_replaces ⟨[("id1", ({} : BookmarkNode))], none⟩ sampleBookmark
    (by decide) (by decide) (by decide)

/-- Claim C8: under a non-empty `priority_range (mn, mx)` filter, every
bookmark in the result has a priority rating `r` with `mn ≤ r ≤ mx`; in
particular an unrated bookmark is never returned, whatever the range. -/
theorem priority_range_excludes_unrated (bs : List Bookmark) (f : BookmarkFilters)
    (mn mx : Nat) (b : Bookmark) (hf : f.priority_range = some (mn, mx))
    (hb : b ∈ apply_filters bs f) :
    ∃ r, b.priority_rating = some r ∧ mn ≤ r ∧ r ≤ mx := by
  simp only [apply_filters, hf] at hb
  have hp := (List.mem_filter.mp hb).2
  cases h : b.priority_rating with
  | none => rw [h] at hp; simp at hp
  | some p =>
    rw [h] at hp
    simp only [Bool.and_eq_true, decide_eq_true_eq] at hp
    exact ⟨p, rfl, hp.1, hp.2⟩

/-- A rated bookmark used by the priority-range witness. -/
def ratedBookmark : Bookmark :=
  ⟨"idR", "https://rated.example.com", "Rated", 0, none, [], none, [],
   ReadingStatus.unread, some 3⟩

theorem priority_range_excludes_unrated_witness :
    ∃ r, ratedBookmark.priority_rating = some r ∧ 1 ≤ r ∧ r ≤ 5 :=
  priority_range_excludes_unrated [ratedBookmark] { priority_range := some (1, 5) }
    1 5 ratedBookmark rfl (by decide)

/-- Claim C9: under a `tags` filter, a bookmark is returned exactly when,
for every listed tag, its own tag list contains a tag equal to it up to
case — AND over all listed tags, case-insensitively. -/
theorem tags_filter_and_case_insensitive (bs : List Bookmark) (ts : List String)
    (b : Bookmark) (f : BookmarkFilters) (hq : f.text_query = none)
    (ht : f.tags = some ts) (hs : f.reading_status = none)
    (hp : f.priority_range = none) :
    b ∈ apply_filters bs f ↔
      b ∈ bs ∧ ∀ t ∈ ts, ∃ bt ∈ b.tags, bt.toLower = t.toLower := by
  simp only [apply_filters, hq, ht, hs, hp]
  rw [List.mem_filter]
  simp [List.all_eq_true, List.any_eq_true]

/-- A tagged bookmark used by the tags-filter witness. -/
def taggedBookmark : Bookmark :=
  ⟨"idT", "https://tagged.example.com", "Tagged", 0, none, ["rust", "Web"],
   none, [], ReadingStatus.unread, none⟩

theorem tags_filter_and_case_insensitive_witness :
    taggedBookmark ∈ apply_filters [taggedBookmark] { tags := some ["Rust", "web"] } ↔
      taggedBookmark ∈ [taggedBookmark] ∧
      ∀ t ∈ ["Rust", "web"], ∃ bt ∈ taggedBookmark.tags, bt.toLower = t.toLower :=
  tags_filter_and_case_insensitive [taggedBookmark] ["Rust", "web"] taggedBookmark
    { tags := some ["Rust", "web"] } rfl rfl rfl rfl

/-- A bookmark whose `bookmarked_date` is 5 and whose `publish_date` is
absent, used to exhibit that the date filters are never consulted. -/
def lateBookmark : Bookmark :=
  ⟨"idL", "https://late.example.com", "Late", 5, none, [], none, [],
   ReadingStatus.unread, none⟩

/-- Claim C3 is refuted by the code: `apply_filters` never reads the
`bookmarked_since/until` or `published_since/until` fields, so a bookmark
violating every date bound — `bookmarked_date = 5` outside the requested
`[10, 0]` window, and no `publish_date` although both publish bounds are
present — is still returned, where the claim requires it to be excluded. -/
theorem date_filters_ignored_eval :
    apply_filters [lateBookmark]
        { bookmarked_since := some 10, bookmarked_until := some 0,
          published_since := some 10, published_until := some 0 } =
      [lateBookmark] ∧
    lateBookmark.bookmarked_date = 5 ∧ lateBookmark.publish_date = none :=
  ⟨rfl, rfl, rfl⟩

/-- Bookmark titled "b", listed first in the sort evaluation. -/
def titleBBookmark : Bookmark :=
  ⟨"idB", "https://b.example.com", "b", 0, none, [], none, [],
   ReadingStatus.unread, none⟩

/-- Bookmark titled "a", listed second in the sort evaluation. -/
def titleABookmark : Bookmark :=
  ⟨"idA", "https://a.example.com", "a", 0, none, [], none, [],
   ReadingStatus.unread, none⟩

/-- Claim C4 is refuted by the code: `apply_filters` never reads the
`sort_by` / `sort_order` fields, so with an ascending-by-title sort
requested the bookmarks come back in their original order "b", "a" instead
of the sorted order "a", "b". -/
theorem sort_ignored_eval :
    apply_filters [titleBBookmark, titleABookmark]
        { sort_by := some SortBy.title, sort_order := some SortDirection.ascending } =
      [titleBBookmark, titleABookmark] ∧
    titleBBookmark.title = "b" ∧ titleABookmark.title = "a" :=
  ⟨rfl, rfl, rfl⟩

/-- Claim C5: during an established session, an inbound `Sync` whose
document id differs from the session's leaves the entire session state
untouched — no apply step, no received-count increment — while a `Sync` for
the matching document id increments the received counter exactly once. -/
theorem sync_docid_discrimination (documentId peerId senderId targetId docId : String)
    (dryRun : Bool) (st : SessionState) (data : SyncBlob) :
    (docId ≠ documentId →
      handleMessage documentId peerId dryRun st (.sync docId senderId targetId data) = st) ∧
    (docId = documentId →
      (handleMessage documentId peerId dryRun st
        (.sync docId senderId targetId data)).changesReceived
        = st.changesReceived + 1) := by
  constructor
  · intro h
    simp [handleMessage, h]
  · intro h
    subst h
    cases dryRun with
    | false => simp [handleMessage, apply_sync_message]
    | true => simp [handleMessage]

theorem sync_docid_discrimination_witness :
    (handleMessage "bookmarks" "p" false ⟨⟨[], []⟩, 0, 0, none, []⟩
       (.sync "other" "s" "t" []) = ⟨⟨[], []⟩, 0, 0, none, []⟩) ∧
    ((handleMessage "bookmarks" "p" false ⟨⟨[], []⟩, 0, 0, none, []⟩
       (.sync "bookmarks" "s" "t" [])).changesReceived = 0 + 1) :=
  ⟨(sync_docid_discrimination "bookmarks" "p" "s" "t" "other" false
      ⟨⟨[], []⟩, 0, 0, none, []⟩ []).1 (by decide),
   (sync_docid_discrimination "bookmarks" "p" "s" "t" "bookmarks" false
      ⟨⟨[], []⟩, 0, 0, none, []⟩ []).2 rfl⟩

/-- One dry-run step never touches the document and counts exactly the
matching `Sync` messages. -/
theorem handleMessage_dryRun_step (documentId peerId : String) (st : SessionState)
    (m : ProtocolMessage) :
    (handleMessage documentId peerId true st m).repo.doc = st.repo.doc ∧
    (handleMessage documentId peerId true st m).changesReceived =
      st.changesReceived + (if isMatchingSync documentId m then 1 else 0) := by
  cases m with
  | join sid v stid => simp [handleMessage, isMatchingSync]
  | peer senderId v stid sel =>
    simp only [handleMessage, isMatchingSync, generate_sync_message]
    split <;> simp
  | sync docId sid tid data =>
    by_cases h : docId = documentId
    · subst h
      simp [handleMessage, isMatchingSync]
    · simp [handleMessage, isMatchingSync, h]
  | request docId sid tid =>
    by_cases h : docId = documentId
    · subst h
      constructor <;>
        (simp only [handleMessage, isMatchingSync]
         split <;> first
           | rfl
           | (split <;> rfl))
    · simp [handleMessage, isMatchingSync, h]

/-- Claim C6: a dry-run session never mutates the local document — after
processing any sequence of inbound messages with the dry-run flag set, the
document equals its initial state, even when nonempty `Sync` data for the
matching id was received — while every matching `Sync` message is still
consumed and counted in the received counter. -/
theorem dry_run_never_mutates (documentId peerId : String) (st : SessionState)
    (msgs : List ProtocolMessage) :
    (runSession documentId peerId true st msgs).repo.doc = st.repo.doc ∧
    (runSession documentId peerId true st msgs).changesReceived =
      st.changesReceived + msgs.countP (isMatchingSync documentId) := by
  induction msgs generalizing st with
  | nil => simp [runSession]
  | cons m rest ih =>
    have hstep := handleMessage_dryRun_step documentId peerId st m
    have hrest := ih (handleMessage documentId peerId true st m)
    have hrun : runSession documentId peerId true st (m :: rest) =
        runSession documentId peerId true (handleMessage documentId peerId true st m) rest := rfl
    constructor
    · rw [hrun, hrest.1, hstep.1]
    · rw [hrun, hrest.2, hstep.2, List.countP_cons]
      by_cases h : isMatchingSync documentId m = true <;> simp [h] <;> omega

end Automark
